import Mathlib

/-
Verification of util/generate_hard_docs.py.

The script is a linear sequence of filesystem operations:

  if os.path.exists(dir):            -- dir = 'hard_docs'
      for filename in os.listdir(dir):
          os.remove(os.path.join(dir, filename))
      os.rmdir(dir)
  os.mkdir(dir)
  with open(docs_path, 'r') as f:    -- docs_path = 'docs.txt'
      docs_content = f.read()
  for i in range(51):
      o = os.path.join(dir, str(i) + ".txt")
      content = str(i) + "\n" + docs_content
      with open(o, 'w') as f:
          f.write(content)
  print("Files created successfully.")

We embed the filesystem state the script can observe or modify as a
structure FS: the content of docs.txt (none when the file is missing),
the hard_docs directory (none when absent, otherwise a list of named
entries, each a flat file with content or a subdirectory), and the
lines printed to standard output.  Each statement of the script becomes
a function on FS; a fallible operation returns Except FS FS, the error
value carrying the filesystem state at the moment the exception
propagates.  The whole script is the function run, producing either
RunResult.success or RunResult.failure with the final state.
-/

namespace HardDocs

/-- A directory entry as the cleanup loop can encounter it: a flat file
with its text content, or a subdirectory (on which os.remove fails). -/
inductive Entry
| file (content : String)
| subdir
deriving DecidableEq, Repr

/-- The filesystem state visible to the script: content of docs.txt
(none when the file does not exist), the hard_docs directory (none when
absent, otherwise its entries in listdir order), and standard output. -/
structure FS where
  docs : Option String
  hardDocs : Option (List (String × Entry))
  stdout : List String
deriving DecidableEq, Repr

/-- True on a flat file, false on a subdirectory. -/
def entryIsFile : Entry → Bool
| Entry.file _ => true
| Entry.subdir => false

/-- A directory state on which the reset step succeeds: absent, or
present with every entry a flat file. -/
def flat : Option (List (String × Entry)) → Bool
| none => true
| some l => l.all (fun p => entryIsFile p.2)

/-- The cleanup loop: os.remove on each listed entry in order.
os.remove succeeds on a flat file and raises on a subdirectory; on the
first subdirectory the loop aborts, returning the entries not yet
removed (the failing one and everything after it). -/
def removeEntries : List (String × Entry) → Except (List (String × Entry)) Unit
| [] => Except.ok ()
| (_, Entry.file _) :: rest => removeEntries rest
| l@((_, Entry.subdir) :: _) => Except.error l

/-- Lines 6-10 of the script: if hard_docs exists, remove every entry
inside it, then rmdir it; if it does not exist, do nothing.  The error
value is the state left behind when os.remove raises. -/
def step_reset (fs : FS) : Except FS FS :=
  match fs.hardDocs with
  | none => Except.ok fs
  | some entries =>
    match removeEntries entries with
    | Except.ok _ => Except.ok { fs with hardDocs := none }
    | Except.error rem => Except.error { fs with hardDocs := some rem }

/-- Line 11: os.mkdir(dir).  Fails if an entry already exists at the
path, otherwise creates the directory empty. -/
def step_mkdir (fs : FS) : Except FS FS :=
  match fs.hardDocs with
  | some _ => Except.error fs
  | none => Except.ok { fs with hardDocs := some [] }

/-- Lines 13-14: open docs.txt and read its whole content.  Raises
(FileNotFoundError) when the file does not exist. -/
def step_read (fs : FS) : Except FS String :=
  match fs.docs with
  | none => Except.error fs
  | some c => Except.ok c

/-- Store an entry under a name in a directory listing: overwrite the
entry of that name if present, otherwise append a new one. -/
def setEntry (entries : List (String × Entry)) (name : String) (e : Entry) :
    List (String × Entry) :=
  if entries.any (fun p => p.1 == name) then
    entries.map (fun p => if p.1 == name then (name, e) else p)
  else entries ++ [(name, e)]

/-- Lines 20-21: open a path inside hard_docs for writing and write the
content.  Fails when the directory is absent or the target name is an
existing subdirectory; otherwise the file is created or truncated. -/
def writeFile (fs : FS) (name content : String) : Except FS FS :=
  match fs.hardDocs with
  | none => Except.error fs
  | some entries =>
    if entries.any (fun p => p.1 == name && !entryIsFile p.2) then
      Except.error fs
    else
      Except.ok { fs with hardDocs := some (setEntry entries name (Entry.file content)) }

/-- The name of the output file of index i: str(i) + ".txt". -/
def fileName (i : Nat) : String := toString i ++ ".txt"

/-- The content written for index i: str(i) + "\n" + docs_content. -/
def fileContent (i : Nat) (docs_content : String) : String :=
  toString i ++ "\n" ++ docs_content

/-- The generation loop, lines 16-21, run over an arbitrary list of
indices: for each i in turn, write fileContent i into fileName i. -/
def genFrom (docs_content : String) (l : List Nat) (fs : FS) : Except FS FS :=
  l.foldlM (fun s i => writeFile s (fileName i) (fileContent i docs_content)) fs

/-- The script's generation loop: for i in range(51). -/
def genLoop (docs_content : String) (fs : FS) : Except FS FS :=
  genFrom docs_content (List.range 51) fs

/-- The success message of line 23. -/
def msg : String := "Files created successfully."

/-- Line 23: print the fixed confirmation line. -/
def printLine (fs : FS) : FS :=
  { fs with stdout := fs.stdout ++ [msg] }

/-- Outcome of one run of the script: normal termination with the final
state, or termination by a propagated exception with the state at that
moment. -/
inductive RunResult
| success (fs : FS)
| failure (fs : FS)
deriving DecidableEq, Repr

/-- The whole script, lines 6-23, executed in order; the first raised
exception aborts the run. -/
def run (fs : FS) : RunResult :=
  match step_reset fs with
  | Except.error e => RunResult.failure e
  | Except.ok fs1 =>
    match step_mkdir fs1 with
    | Except.error e => RunResult.failure e
    | Except.ok fs2 =>
      match step_read fs2 with
      | Except.error e => RunResult.failure e
      | Except.ok docs_content =>
        match genLoop docs_content fs2 with
        | Except.error e => RunResult.failure e
        | Except.ok fs3 => RunResult.success (printLine fs3)

/-- The directory listing after the first k iterations of the loop:
files fileName 0 .. fileName (k-1), each with its final content. -/
def expectedUpTo (docs_content : String) (k : Nat) : List (String × Entry) :=
  (List.range k).map (fun i => (fileName i, Entry.file (fileContent i docs_content)))

/-- The directory listing after a successful run: the 51 files 0.txt
through 50.txt. -/
def expectedEntries (docs_content : String) : List (String × Entry) :=
  expectedUpTo docs_content 51

/-- The final state of a successful run starting from fs with docs.txt
content docs_content. -/
def successFS (fs : FS) (docs_content : String) : FS :=
  { fs with hardDocs := some (expectedEntries docs_content),
            stdout := fs.stdout ++ [msg] }

/-- The pure effect of the generation loop on a directory listing,
ignoring failure: fold the writes of the given indices over it. -/
def writeAll (C : String) (l : List Nat) (entries : List (String × Entry)) :
    List (String × Entry) :=
  l.foldl (fun s i => setEntry s (fileName i) (Entry.file (fileContent i C))) entries

/-- Look a file up by name in the hard_docs directory of a state. -/
def readFile (fs : FS) (name : String) : Option Entry :=
  match fs.hardDocs with
  | none => none
  | some entries => entries.lookup name

/-- A state with no docs.txt, no hard_docs and nothing printed yet. -/
def emptyFS : FS := { docs := none, hardDocs := none, stdout := [] }

/-- The concrete scenario of the spec: docs.txt holds the two lines
Hello and World, hard_docs is absent, nothing printed yet. -/
def c6fs : FS := { docs := some "Hello\nWorld", hardDocs := none, stdout := [] }

/-- A state with docs.txt missing while hard_docs holds a subdirectory
listed first, followed by stale files named 0.txt through 50.txt. -/
def c4pre : FS :=
  { docs := none,
    hardDocs := some (("blocker", Entry.subdir) ::
      (List.range 51).map (fun i => (fileName i, Entry.file "stale"))),
    stdout := [] }

/-- A state whose pre-existing hard_docs holds one stale flat file. -/
def staleFS : FS :=
  { docs := some "Hello\nWorld", hardDocs := some [("stale.txt", Entry.file "old")], stdout := [] }

/-- A state whose pre-existing hard_docs holds a subdirectory, on which
the cleanup loop must fail. -/
def c8blocked : FS :=
  { docs := some "Hello\nWorld", hardDocs := some [("blocker", Entry.subdir)], stdout := [] }

/-- A state with an empty hard_docs directory already in place. -/
def c10fs : FS := { docs := some "x", hardDocs := some [], stdout := [] }

/-- The cleanup loop succeeds on a listing of flat files. -/
theorem removeEntries_ok (l : List (String × Entry))
    (h : l.all (fun p => entryIsFile p.2) = true) : removeEntries l = Except.ok () := by
  induction l with
  | nil => rfl
  | cons p rest ih =>
    obtain ⟨name, e⟩ := p
    cases e with
    | file c =>
      simp only [List.all_cons, Bool.and_eq_true] at h
      show removeEntries rest = Except.ok ()
      exact ih h.2
    | subdir => simp [entryIsFile] at h

/-- The cleanup loop fails on a listing that is not all flat files. -/
theorem removeEntries_error (l : List (String × Entry))
    (h : l.all (fun p => entryIsFile p.2) = false) :
    ∃ rem, removeEntries l = Except.error rem := by
  induction l with
  | nil => simp at h
  | cons p rest ih =>
    obtain ⟨name, e⟩ := p
    cases e with
    | file c =>
      simp [entryIsFile] at h
      obtain ⟨rem, hrem⟩ := ih (by simpa using h)
      exact ⟨rem, by simpa [removeEntries] using hrem⟩
    | subdir => exact ⟨_, rfl⟩

/-- The reset step on a flat directory state removes the directory and
changes nothing else. -/
theorem step_reset_flat (fs : FS) (h : flat fs.hardDocs = true) :
    step_reset fs = Except.ok { fs with hardDocs := none } := by
  obtain ⟨d, hd, s⟩ := fs
  cases hd with
  | none => rfl
  | some entries =>
    simp only [flat] at h
    simp [step_reset, removeEntries_ok entries h]

/-- The reset step on a non-flat directory state fails, leaving the
directory in place with some remaining entries. -/
theorem step_reset_error (fs : FS) (h : flat fs.hardDocs = false) :
    ∃ rem, step_reset fs = Except.error { fs with hardDocs := some rem } := by
  obtain ⟨d, hd, s⟩ := fs
  cases hd with
  | none => simp [flat] at h
  | some entries =>
    simp only [flat] at h
    obtain ⟨rem, hrem⟩ := removeEntries_error entries h
    exact ⟨rem, by simp [step_reset, hrem]⟩

/-- Writing into a directory of flat files succeeds and stores the
entry. -/
theorem writeFile_ok (fs : FS) (entries : List (String × Entry)) (name c : String)
    (hd : fs.hardDocs = some entries)
    (h : entries.all (fun p => entryIsFile p.2) = true) :
    writeFile fs name c =
      Except.ok { fs with hardDocs := some (setEntry entries name (Entry.file c)) } := by
  have hany : entries.any (fun p => p.1 == name && !entryIsFile p.2) = false := by
    rw [List.any_eq_false]
    intro p hp
    simp only [List.all_eq_true] at h
    simp [h p hp]
  simp [writeFile, hd, hany]

/-- Storing a file in a listing of flat files keeps it all flat files. -/
theorem setEntry_all_file (entries : List (String × Entry)) (name c : String)
    (h : entries.all (fun p => entryIsFile p.2) = true) :
    (setEntry entries name (Entry.file c)).all (fun p => entryIsFile p.2) = true := by
  simp only [List.all_eq_true] at h ⊢
  intro p hp
  unfold setEntry at hp
  split at hp
  · simp only [List.mem_map] at hp
    obtain ⟨q, hq, hpq⟩ := hp
    by_cases hb : q.1 == name
    · simp [hb] at hpq; simp [← hpq, entryIsFile]
    · simp [hb] at hpq; simp [← hpq, h q hq]
  · rcases List.mem_append.mp hp with hmem | hmem
    · exact h p hmem
    · simp at hmem; simp [hmem, entryIsFile]

/-- Storing under a name not yet present appends the new entry. -/
theorem setEntry_append_of_fresh (entries : List (String × Entry)) (name : String) (e : Entry)
    (h : entries.any (fun p => p.1 == name) = false) :
    setEntry entries name e = entries ++ [(name, e)] := by
  simp [setEntry, h]

/-- From a directory of flat files the generation loop never fails and
acts as the pure fold writeAll on the listing. -/
theorem genFrom_ok (C : String) (l : List Nat) :
    ∀ (fs : FS) (entries : List (String × Entry)), fs.hardDocs = some entries →
    entries.all (fun p => entryIsFile p.2) = true →
    genFrom C l fs = Except.ok { fs with hardDocs := some (writeAll C l entries) } := by
  induction l with
  | nil =>
    intro fs entries hd h
    obtain ⟨d, hdd, s⟩ := fs
    simp only at hd
    subst hd
    rfl
  | cons i rest ih =>
    intro fs entries hd h
    have hw := writeFile_ok fs entries (fileName i) (fileContent i C) hd h
    have hall := setEntry_all_file entries (fileName i) (fileContent i C) h
    have := ih { fs with hardDocs := some (setEntry entries (fileName i) (Entry.file (fileContent i C))) }
      (setEntry entries (fileName i) (Entry.file (fileContent i C))) rfl hall
    simp only [genFrom, List.foldlM_cons] at *
    rw [hw]
    simpa [writeAll] using this

/-- No earlier index produces the file name of index k, for k below 51. -/
theorem fileName_fresh : ∀ k, k < 51 →
    (List.range k).any (fun i => fileName i == fileName k) = false := by decide

/-- Name lookup in a mapped listing reduces to a check on the indices. -/
theorem any_map_name (C name : String) (l : List Nat) :
    ((l.map (fun i => (fileName i, Entry.file (fileContent i C)))).any
      (fun p => p.1 == name)) = l.any (fun i => fileName i == name) := by
  induction l with
  | nil => rfl
  | cons i rest ih => simp [ih]

/-- Name lookup in expectedUpTo reduces to a check on the indices. -/
theorem expectedUpTo_any_name (C : String) (k : Nat) (name : String) :
    (expectedUpTo C k).any (fun p => p.1 == name) =
      (List.range k).any (fun i => fileName i == name) := by
  rw [expectedUpTo, any_map_name]

/-- Every entry of expectedUpTo is a flat file. -/
theorem expectedUpTo_all_file (C : String) (k : Nat) :
    (expectedUpTo C k).all (fun p => entryIsFile p.2) = true := by
  simp [expectedUpTo, List.all_map, Function.comp, entryIsFile]

/-- writeAll splits over list append. -/
theorem writeAll_append (C : String) (l1 l2 : List Nat) (e : List (String × Entry)) :
    writeAll C (l1 ++ l2) e = writeAll C l2 (writeAll C l1 e) := by
  simp [writeAll, List.foldl_append]

/-- Writing indices 0 to k-1 into an empty listing yields exactly the
files of expectedUpTo, for k up to 51. -/
theorem writeAll_range_eq_expected (C : String) :
    ∀ k, k ≤ 51 → writeAll C (List.range k) [] = expectedUpTo C k := by
  intro k
  induction k with
  | zero => intro _; rfl
  | succ n ih =>
    intro hn
    have hnle : n ≤ 51 := Nat.le_of_succ_le hn
    have hnlt : n < 51 := Nat.lt_of_succ_le hn
    rw [List.range_succ, writeAll_append, ih hnle]
    show setEntry (expectedUpTo C n) (fileName n) (Entry.file (fileContent n C)) =
      expectedUpTo C (n + 1)
    rw [setEntry_append_of_fresh _ _ _ (by
      rw [expectedUpTo_any_name]
      exact fileName_fresh n hnlt)]
    simp [expectedUpTo, List.range_succ]

/-- Master lemma, success case: from a flat directory state with
docs.txt present, the run succeeds and the final state is successFS. -/
theorem run_flat_some (fs : FS) (C : String) (hflat : flat fs.hardDocs = true)
    (hdocs : fs.docs = some C) :
    run fs = RunResult.success (successFS fs C) := by
  have h1 := step_reset_flat fs hflat
  have h3 : step_read { fs with hardDocs := some ([] : List (String × Entry)) } = Except.ok C := by
    simp [step_read, hdocs]
  have h4 := genFrom_ok C (List.range 51)
    { fs with hardDocs := some ([] : List (String × Entry)) } [] rfl rfl
  rw [writeAll_range_eq_expected C 51 (le_refl 51)] at h4
  simp only [run, h1, step_mkdir, h3, genLoop, h4]
  rfl

/-- Master lemma, read-failure case: from a flat directory state with
docs.txt missing, the run fails right after recreating hard_docs. -/
theorem run_flat_none (fs : FS) (hflat : flat fs.hardDocs = true)
    (hdocs : fs.docs = none) :
    run fs = RunResult.failure { fs with hardDocs := some [] } := by
  have h1 := step_reset_flat fs hflat
  simp only [run, h1, step_mkdir]
  simp [step_read, hdocs]

/-- Master lemma, reset-failure case: from a non-flat directory state
the run fails during cleanup, hard_docs keeping some entries. -/
theorem run_not_flat (fs : FS) (hflat : flat fs.hardDocs = false) :
    ∃ rem, run fs = RunResult.failure { fs with hardDocs := some rem } := by
  obtain ⟨rem, hrem⟩ := step_reset_error fs hflat
  exact ⟨rem, by simp [run, hrem]⟩

/-- Inversion: a successful run forces a flat starting directory, a
present docs.txt, and the successFS final state. -/
theorem run_success_inv (fs fs' : FS) (h : run fs = RunResult.success fs') :
    flat fs.hardDocs = true ∧ ∃ C, fs.docs = some C ∧ fs' = successFS fs C := by
  by_cases hflat : flat fs.hardDocs = true
  · cases hdocs : fs.docs with
    | none => rw [run_flat_none fs hflat hdocs] at h; exact absurd h (by simp)
    | some C =>
      rw [run_flat_some fs C hflat hdocs] at h
      exact ⟨hflat, C, rfl, (RunResult.success.injEq .. ▸ h).symm⟩
  · obtain ⟨rem, hrem⟩ := run_not_flat fs (by simpa using hflat)
    rw [hrem] at h
    exact absurd h (by simp)

/-- The cleanup loop, when it fails, leaves a suffix of the original
listing in place. -/
theorem removeEntries_error_suffix (l : List (String × Entry))
    (h : l.all (fun p => entryIsFile p.2) = false) :
    ∃ rem, removeEntries l = Except.error rem ∧ rem <:+ l := by
  induction l with
  | nil => simp at h
  | cons p rest ih =>
    obtain ⟨name, e⟩ := p
    cases e with
    | file c =>
      simp [entryIsFile] at h
      obtain ⟨rem, hrem, hsuf⟩ := ih (by simpa using h)
      exact ⟨rem, by simpa [removeEntries] using hrem,
        hsuf.trans (List.suffix_cons (name, Entry.file c) rest)⟩
    | subdir => exact ⟨_, rfl, List.suffix_refl _⟩

/-- The reset step, when it fails, leaves hard_docs holding a suffix of
its original listing. -/
theorem step_reset_error_suffix (fs : FS) (entries : List (String × Entry))
    (hd : fs.hardDocs = some entries)
    (h : entries.all (fun p => entryIsFile p.2) = false) :
    ∃ rem, step_reset fs = Except.error { fs with hardDocs := some rem } ∧ rem <:+ entries := by
  obtain ⟨rem, hrem, hsuf⟩ := removeEntries_error_suffix entries h
  exact ⟨rem, by simp [step_reset, hd, hrem], hsuf⟩

/-- A failed run prints nothing: the error state keeps the original
standard output. -/
theorem run_failure_stdout (fs e : FS) (h : run fs = RunResult.failure e) :
    e.stdout = fs.stdout := by
  by_cases hflat : flat fs.hardDocs = true
  · cases hdocs : fs.docs with
    | none =>
      rw [run_flat_none fs hflat hdocs] at h
      cases h
      rfl
    | some C =>
      rw [run_flat_some fs C hflat hdocs] at h
      cases h
  · obtain ⟨rem, hrem⟩ := run_not_flat fs (by simpa using hflat)
    rw [hrem] at h
    cases h
    rfl

/-- C1: after a successful run with docs.txt content C the hard_docs
directory is exactly the 51 files 0.txt through 50.txt in index order,
any pre-existing entries gone, the file of index i holding the decimal
string of i, one newline, then C verbatim. -/
theorem c1_success_dir_contents (fs fs' : FS) (h : run fs = RunResult.success fs') :
    ∃ C, fs.docs = some C ∧ fs'.hardDocs = some (expectedEntries C) ∧
      (expectedEntries C).length = 51 := by
  obtain ⟨hflat, C, hdocs, rfl⟩ := run_success_inv fs fs' h
  exact ⟨C, hdocs, rfl, by simp [expectedEntries, expectedUpTo]⟩

/-- Witness for C1 at the concrete Hello-World starting state. -/
theorem c1_witness : ∃ C, c6fs.docs = some C ∧
    (successFS c6fs "Hello\nWorld").hardDocs = some (expectedEntries C) ∧
    (expectedEntries C).length = 51 := by
  exact c1_success_dir_contents c6fs (successFS c6fs "Hello\nWorld") (by decide)

/-- C2: the directory-reset step removes every entry of an existing
output directory of flat files and then the directory itself; when the
directory does not exist it changes nothing on the filesystem. -/
theorem c2_reset_contract (fs : FS) :
    (fs.hardDocs = none → step_reset fs = Except.ok fs) ∧
    (∀ entries, fs.hardDocs = some entries →
      entries.all (fun p => entryIsFile p.2) = true →
      step_reset fs = Except.ok { fs with hardDocs := none }) := by
  constructor
  · intro h
    simp [step_reset, h]
  · intro entries he hall
    exact step_reset_flat fs (by simp [flat, he, hall])

/-- Witness for C2: reset on an absent directory and on a directory
holding one stale flat file. -/
theorem c2_witness :
    step_reset emptyFS = Except.ok emptyFS ∧
    step_reset staleFS = Except.ok { staleFS with hardDocs := none } := by
  exact ⟨(c2_reset_contract emptyFS).1 rfl, (c2_reset_contract staleFS).2 _ rfl (by decide)⟩

/-- C3: running the procedure twice with unchanged docs.txt content
gives byte-identical output both times: a second run from the state a
successful run left behind succeeds again with the same hard_docs. -/
theorem c3_idempotent (fs fs1 : FS) (h : run fs = RunResult.success fs1) :
    ∃ fs2, run fs1 = RunResult.success fs2 ∧ fs2.hardDocs = fs1.hardDocs := by
  obtain ⟨hflat, C, hdocs, rfl⟩ := run_success_inv fs fs1 h
  refine ⟨successFS (successFS fs C) C, run_flat_some _ C ?_ ?_, ?_⟩
  · simp [successFS, flat, expectedEntries, expectedUpTo_all_file]
  · simp [successFS, hdocs]
  · simp [successFS]

/-- Witness for C3 at the concrete Hello-World starting state. -/
theorem c3_witness : ∃ fs2,
    run (successFS c6fs "Hello\nWorld") = RunResult.success fs2 ∧
    fs2.hardDocs = (successFS c6fs "Hello\nWorld").hardDocs := by
  exact c3_idempotent c6fs (successFS c6fs "Hello\nWorld") (by decide)

/-- Counterexample to C4 as stated: with docs.txt missing and a
pre-existing hard_docs whose first listed entry is a subdirectory
followed by stale files named 0.txt through 50.txt, the run fails
before removing anything, so hard_docs is left neither absent nor
empty nor partially written: it still holds a complete set of 51 files
named 0.txt through 50.txt. -/
theorem c4_counterexample :
    c4pre.docs = none ∧ run c4pre = RunResult.failure c4pre ∧
    ((List.range 51).all (fun i =>
      (c4pre.hardDocs.getD []).any (fun p => p.1 == fileName i && entryIsFile p.2))) = true := by
  decide

/-- C4 amended: if docs.txt does not exist, the run terminates with a
propagated error and no success message is printed; when the reset
step succeeds hard_docs is left existing and empty, and when the reset
step itself fails hard_docs retains a suffix of its pre-existing
listing (which may include files named 0.txt through 50.txt). -/
theorem c4_missing_source (fs : FS) (h : fs.docs = none) :
    ∃ e, run fs = RunResult.failure e ∧ e.stdout = fs.stdout ∧
      (flat fs.hardDocs = true → e.hardDocs = some []) ∧
      (∀ entries, fs.hardDocs = some entries → flat fs.hardDocs = false →
        ∃ rem, e.hardDocs = some rem ∧ rem <:+ entries) := by
  by_cases hflat : flat fs.hardDocs = true
  · refine ⟨_, run_flat_none fs hflat h, rfl, fun _ => rfl, ?_⟩
    intro entries he hf
    rw [hflat] at hf
    simp at hf
  · have hflat' : flat fs.hardDocs = false := by simpa using hflat
    obtain ⟨entries, hd⟩ : ∃ entries, fs.hardDocs = some entries := by
      cases hcase : fs.hardDocs with
      | none => rw [hcase] at hflat'; simp [flat] at hflat'
      | some l => exact ⟨l, rfl⟩
    have hall : entries.all (fun p => entryIsFile p.2) = false := by
      rw [hd] at hflat'
      simpa [flat] using hflat'
    obtain ⟨rem, hrem, hsuf⟩ := step_reset_error_suffix fs entries hd hall
    refine ⟨{ fs with hardDocs := some rem }, by simp [run, hrem], rfl,
      fun hf => absurd hf hflat, ?_⟩
    intro entries' he' _
    rw [hd] at he'
    exact ⟨rem, rfl, (Option.some.inj he') ▸ hsuf⟩

/-- Witness for amended C4 at the state with no docs.txt and no
hard_docs. -/
theorem c4_witness : ∃ e, run emptyFS = RunResult.failure e ∧ e.stdout = emptyFS.stdout ∧
    (flat emptyFS.hardDocs = true → e.hardDocs = some []) ∧
    (∀ entries, emptyFS.hardDocs = some entries → flat emptyFS.hardDocs = false →
      ∃ rem, e.hardDocs = some rem ∧ rem <:+ entries) := by
  exact c4_missing_source emptyFS rfl

/-- C5: when the pre-existing output directory contains a subdirectory,
the reset step fails, the error propagates so the run terminates as a
failure, and the success message is never printed. -/
theorem c5_subdir_blocks_reset (fs : FS) (entries : List (String × Entry))
    (hd : fs.hardDocs = some entries) (name : String)
    (hsub : (name, Entry.subdir) ∈ entries) :
    ∃ rem, step_reset fs = Except.error { fs with hardDocs := some rem } ∧
      run fs = RunResult.failure { fs with hardDocs := some rem } ∧
      ({ fs with hardDocs := some rem } : FS).stdout = fs.stdout := by
  have hall : entries.all (fun p => entryIsFile p.2) = false := by
    cases hcase : entries.all (fun p => entryIsFile p.2) with
    | false => rfl
    | true =>
      have := List.all_eq_true.mp hcase _ hsub
      simp [entryIsFile] at this
  obtain ⟨rem, hrem, _⟩ := step_reset_error_suffix fs entries hd hall
  exact ⟨rem, hrem, by simp [run, hrem], rfl⟩

/-- Witness for C5 at a state whose hard_docs holds one subdirectory. -/
theorem c5_witness : ∃ rem,
    step_reset c8blocked = Except.error { c8blocked with hardDocs := some rem } ∧
    run c8blocked = RunResult.failure { c8blocked with hardDocs := some rem } ∧
    ({ c8blocked with hardDocs := some rem } : FS).stdout = c8blocked.stdout := by
  exact c5_subdir_blocks_reset c8blocked _ rfl "blocker" (by decide)

/-- C6: with docs.txt holding the two lines Hello and World, a run
succeeds, hard_docs/7.txt holds exactly the line 7 followed by Hello
and World with no trailing newline added, and standard output ends
with the line Files created successfully. -/
theorem c6_concrete :
    run c6fs = RunResult.success (successFS c6fs "Hello\nWorld") ∧
    readFile (successFS c6fs "Hello\nWorld") "7.txt" = some (Entry.file "7\nHello\nWorld") ∧
    (successFS c6fs "Hello\nWorld").stdout.getLast? = some "Files created successfully." := by
  decide

/-- C7: the fixed confirmation line is emitted exactly once per
successful run and only with all 51 output files in place, and a run
that fails before the loop completes prints nothing at all. -/
theorem c7_message_discipline (fs : FS) :
    (∀ fs', run fs = RunResult.success fs' →
      fs'.stdout = fs.stdout ++ [msg] ∧
      ∃ C, fs.docs = some C ∧ fs'.hardDocs = some (expectedEntries C)) ∧
    (∀ e, run fs = RunResult.failure e → e.stdout = fs.stdout) := by
  constructor
  · intro fs' h
    obtain ⟨hflat, C, hdocs, rfl⟩ := run_success_inv fs fs' h
    exact ⟨rfl, C, hdocs, rfl⟩
  · intro e h
    exact run_failure_stdout fs e h

/-- Witness for C7 at the concrete Hello-World starting state. -/
theorem c7_witness :
    (successFS c6fs "Hello\nWorld").stdout = c6fs.stdout ++ [msg] ∧
    ∃ C, c6fs.docs = some C ∧
      (successFS c6fs "Hello\nWorld").hardDocs = some (expectedEntries C) := by
  exact (c7_message_discipline c6fs).1 (successFS c6fs "Hello\nWorld") (by decide)

/-- Counterexample to C8 as stated: two runs with identical docs.txt
content but different pre-existing hard_docs states end differently:
from a clean state the run succeeds with the 51 files and the printed
line, while from a state whose hard_docs holds a subdirectory the run
fails during cleanup, so neither the resulting hard_docs contents nor
the printed output are identical. -/
theorem c8_counterexample :
    c6fs.docs = c8blocked.docs ∧
    run c6fs = RunResult.success (successFS c6fs "Hello\nWorld") ∧
    run c8blocked = RunResult.failure c8blocked ∧
    (successFS c6fs "Hello\nWorld").hardDocs ≠ c8blocked.hardDocs ∧
    (successFS c6fs "Hello\nWorld").stdout ≠ c8blocked.stdout := by
  decide

/-- C8 amended: the procedure consults nothing beyond the modelled
filesystem state, and any two successful runs with the same docs.txt
content produce identical hard_docs contents and print the same new
output, whatever their pre-existing hard_docs states were. -/
theorem c8_deterministic (a b a' b' : FS) (hdocs : a.docs = b.docs)
    (ha : run a = RunResult.success a') (hb : run b = RunResult.success b') :
    a'.hardDocs = b'.hardDocs ∧
    a'.stdout.drop a.stdout.length = b'.stdout.drop b.stdout.length := by
  obtain ⟨_, C, hca, rfl⟩ := run_success_inv a a' ha
  obtain ⟨_, C2, hcb, rfl⟩ := run_success_inv b b' hb
  have hC : C = C2 := by
    rw [hca, hcb] at hdocs
    exact Option.some.inj hdocs
  subst hC
  refine ⟨by simp [successFS], ?_⟩
  simp [successFS, List.drop_left]

/-- Witness for amended C8: a clean start and a start with a stale file
give the same hard_docs contents and the same new output. -/
theorem c8_witness :
    (successFS c6fs "Hello\nWorld").hardDocs = (successFS staleFS "Hello\nWorld").hardDocs ∧
    (successFS c6fs "Hello\nWorld").stdout.drop c6fs.stdout.length =
      (successFS staleFS "Hello\nWorld").stdout.drop staleFS.stdout.length := by
  exact c8_deterministic c6fs staleFS (successFS c6fs "Hello\nWorld")
    (successFS staleFS "Hello\nWorld") (by decide) (by decide) (by decide)

/-- C9: because reset and recreation both complete before docs.txt is
opened, a failure at the source-read step always leaves hard_docs
existing and empty: never absent and holding no output file. -/
theorem c9_read_failure_leaves_empty_dir (fs : FS) (hdocs : fs.docs = none)
    (hflat : flat fs.hardDocs = true) :
    ∃ e, run fs = RunResult.failure e ∧ e.hardDocs = some [] ∧ e.stdout = fs.stdout := by
  exact ⟨_, run_flat_none fs hflat hdocs, rfl, rfl⟩

/-- Witness for C9 at the state with no docs.txt and no hard_docs. -/
theorem c9_witness : ∃ e, run emptyFS = RunResult.failure e ∧
    e.hardDocs = some [] ∧ e.stdout = emptyFS.stdout := by
  exact c9_read_failure_leaves_empty_dir emptyFS rfl rfl

/-- C10: the output files are written one at a time in strictly
increasing index order, so after the first k iterations of the
generation loop, for any k up to 51, the directory is exactly the
files of indices 0 through k-1, each already with its final content;
a write failure at index k would therefore leave precisely the files
of indices below k. -/
theorem c10_loop_invariant (C : String) (k : Nat) (hk : k ≤ 51) (fs : FS)
    (hd : fs.hardDocs = some []) :
    genFrom C (List.range k) fs =
      Except.ok { fs with hardDocs := some (expectedUpTo C k) } := by
  have h := genFrom_ok C (List.range k) fs [] hd rfl
  rw [show writeAll C (List.range k) [] = expectedUpTo C k from
    writeAll_range_eq_expected C k hk] at h
  exact h

/-- Witness for C10 at a concrete prefix of two iterations. -/
theorem c10_witness :
    genFrom "x" (List.range 2) c10fs =
      Except.ok { c10fs with hardDocs := some (expectedUpTo "x" 2) } := by
  exact c10_loop_invariant "x" 2 (by decide) c10fs rfl

end HardDocs
